import Mathlib

/-!
# Verification of the Mercury DNS server against its specification

Shallow embedding of `main.go` of the `mercury` repository.

Modelling conventions:
* Go bytes are `Nat` (values < 256 in practice), Go strings and byte
  slices are `List Nat` (a Go string is a byte sequence).
* `time.Time` is an absolute number of seconds (`Nat`); `time.Duration`
  arithmetic on whole seconds is exact addition.
* A fallible Go function returning `(T, error)` becomes
  `Except Fault T`; a Go runtime fault (index or slice out of range,
  `log.Fatal`, non-termination of unbounded recursion) is a distinct
  `Fault` constructor, because a panic is not a returned `error` value.
* Go maps keyed by strings become association lists `List (List Nat × _)`
  where assignment replaces the previous binding.
-/

set_option maxRecDepth 100000

namespace Mercury

/-- Byte view of an ASCII Go string literal. -/
def strBytes (s : String) : List Nat := s.data.map Char.toNat

/-- Failure outcomes.  `labelTooLong` and `invalidName` are the two
`errors.New` values returned by the code; `indexOutOfRange` is a Go
runtime panic; `logFatal` is a `log.Fatal` call (process exit);
`diverge` marks exhaustion of the fuel that models Go's unbounded
recursion; `proxyFailed` is a network error returned by `Proxy`. -/
inductive Fault
  | labelTooLong
  | invalidName
  | indexOutOfRange
  | logFatal
  | diverge
  | proxyFailed
  deriving DecidableEq

instance {ε α : Type} [DecidableEq ε] [DecidableEq α] : DecidableEq (Except ε α) := fun x y =>
  match x, y with
  | .ok a, .ok b => if h : a = b then isTrue (by rw [h]) else isFalse (by simp [h])
  | .error a, .error b => if h : a = b then isTrue (by rw [h]) else isFalse (by simp [h])
  | .ok _, .error _ => isFalse (by simp)
  | .error _, .ok _ => isFalse (by simp)

/-! ## Domain-name codec (`EncodeDomainName` / `DecodeDomainName`, main.go:186-220) -/

/-- Go `strings.TrimSuffix(dn, ".")`: removes one trailing dot, if present. -/
def trimSuffixDot (dn : List Nat) : List Nat :=
  if dn.getLast? = some 46 then dn.dropLast else dn

/-- The label loop of `EncodeDomainName`: for each part, reject lengths
above 63, otherwise emit one length octet and the label, and finish with
a zero octet. -/
def encodeLabels : List (List Nat) → Except Fault (List Nat)
  | [] => .ok [0]
  | p :: ps =>
    if 63 < p.length then .error .labelTooLong
    else (encodeLabels ps).map (fun rest => p.length :: (p ++ rest))

/-- `EncodeDomainName` (main.go:186): empty input and `"."` encode as
`{0x00}`; otherwise one trailing dot is stripped, the name is split on
`'.'` and each label is emitted length-prefixed. -/
def EncodeDomainName (dn : List Nat) : Except Fault (List Nat) :=
  if dn = [] ∨ dn = [46] then .ok [0]
  else encodeLabels ((trimSuffixDot dn).splitOn 46)

/-- The `for data[i] != 0` loop of `DecodeDomainName` (main.go:211-218).
`data` is indexed absolutely at `i`, exactly as in the source; reading
past the end of `data` is the Go panic (`indexOutOfRange`).  The fuel
only serves termination: the caller passes more fuel than the loop can
ever consume (each step advances `i` by at least 1). -/
def decodeLoop (data : List Nat) : Nat → List Nat → Nat → Except Fault (List Nat × Nat)
  | 0, _, _ => .error .diverge
  | fuel + 1, dn, i =>
    match data[i]? with
    | none => .error .indexOutOfRange
    | some len =>
      if len = 0 then .ok (dn, i + 1)
      else if data.length ≤ i + len then .error .invalidName
      else decodeLoop data fuel (dn ++ (((data.drop (i + 1)).take len) ++ [46])) (i + len + 1)

/-- `DecodeDomainName` (main.go:205): the single byte `{0x00}` decodes
to `"."` with 0 bytes consumed; otherwise labels are read until a zero
length octet, appending each label and a dot to the result. -/
def DecodeDomainName (data : List Nat) : Except Fault (List Nat × Nat) :=
  if data = [0] then .ok ([46], 0)
  else decodeLoop data (data.length + 1) [] 0

/-! ## Wire data model (main.go:68-132)

All integer fields are Go `uint16`/`uint32`; we model them as `Nat`
holding values below `2^16` / `2^32`, and apply the modulus wherever Go
performs a narrowing conversion. -/

structure Header where
  ID      : Nat
  QR      : Nat
  Opcode  : Nat
  AA      : Nat
  TC      : Nat
  RD      : Nat
  RA      : Nat
  Z       : Nat
  RCODE   : Nat
  QDCount : Nat
  ANCount : Nat
  NSCount : Nat
  ARCount : Nat
  deriving DecidableEq

structure Question where
  DomainName : List Nat
  QType      : Nat
  QClass     : Nat
  deriving DecidableEq

/-- `Type'` is the Go field `Type` (a Lean keyword). -/
structure Answer where
  RData    : List Nat
  Name     : List Nat
  TTL      : Nat
  Type'    : Nat
  Class    : Nat
  RDLength : Nat
  deriving DecidableEq

structure Message where
  Expiry     : Nat
  Bytes      : List Nat
  Question   : Question
  Answers    : List Answer
  Authority  : List Answer
  Additional : List Answer
  Header     : Header
  deriving DecidableEq

/-- qtype code for A records (main.go:116). -/
def TypeA : Nat := 1

/-- Go `binary.BigEndian.PutUint16`: two bytes, most significant first.
The `% 65536` is the `uint16` width of every value the code stores. -/
def putUint16 (v : Nat) : List Nat := [v % 65536 / 256, v % 256]

/-- Go `binary.BigEndian.PutUint32`. -/
def putUint32 (v : Nat) : List Nat :=
  [v % 4294967296 / 16777216, v % 16777216 / 65536, v % 65536 / 256, v % 256]

/-- Go `binary.BigEndian.Uint16(data[i:i+2])` where the bound was
already checked by the caller. -/
def word16 (data : List Nat) (i : Nat) : Nat := data.getD i 0 * 256 + data.getD (i + 1) 0

/-- `binary.BigEndian.Uint16(data[i:i+2])` with the Go slice bounds
check: slicing past the end of the data is a panic. -/
def readUint16 (data : List Nat) (i : Nat) : Except Fault Nat :=
  if i + 2 ≤ data.length then .ok (word16 data i) else .error .indexOutOfRange

/-- `binary.BigEndian.Uint32(data[i:i+4])` with the Go slice bounds check. -/
def readUint32 (data : List Nat) (i : Nat) : Except Fault Nat :=
  if i + 4 ≤ data.length then
    .ok (((data.getD i 0 * 256 + data.getD (i + 1) 0) * 256 + data.getD (i + 2) 0) * 256
          + data.getD (i + 3) 0)
  else .error .indexOutOfRange

/-- The second 16-bit word of the header encoding (main.go:229).  Go
computes it with `uint16` shifts and ors; keeping only the low 16 bits
of the `Nat` result is the same operation. -/
def Header.flags (h : Header) : Nat :=
  (h.QR <<< 15 ||| h.Opcode <<< 11 ||| h.AA <<< 10 ||| h.TC <<< 9 |||
   h.RD <<< 8 ||| h.RA <<< 7 ||| h.Z <<< 4 ||| h.RCODE) % 65536

/-- `Header.Encode` (main.go:226): fixed 12 bytes, all words big-endian. -/
def Header.Encode (h : Header) : List Nat :=
  putUint16 h.ID ++ putUint16 h.flags ++ putUint16 h.QDCount ++
  putUint16 h.ANCount ++ putUint16 h.NSCount ++ putUint16 h.ARCount

/-- `Header.Decode` (main.go:303).  The source performs no length
check; every field read slices `data`, so any input shorter than 12
bytes makes the first out-of-range slice panic. -/
def Header.Decode (data : List Nat) : Except Fault Header :=
  if data.length < 12 then .error .indexOutOfRange
  else .ok
    { ID := word16 data 0
      QR := word16 data 2 >>> 15
      Opcode := (word16 data 2 >>> 11) &&& 15
      AA := (word16 data 2 >>> 10) &&& 1
      TC := (word16 data 2 >>> 9) &&& 1
      RD := (word16 data 2 >>> 8) &&& 1
      RA := (word16 data 2 >>> 7) &&& 1
      Z := (word16 data 2 >>> 4) &&& 7
      RCODE := word16 data 2 &&& 15
      QDCount := word16 data 4
      ANCount := word16 data 6
      NSCount := word16 data 8
      ARCount := word16 data 10 }

/-- `Question.Encode` (main.go:240): Go returns a nil slice when the
domain name cannot be encoded. -/
def Question.Encode (q : Question) : List Nat :=
  match EncodeDomainName q.DomainName with
  | .error _ => []
  | .ok dn => dn ++ putUint16 q.QType ++ putUint16 q.QClass

/-- `Answer.Encode` (main.go:264); the `*Message` parameter of the Go
method is unused. -/
def Answer.Encode (a : Answer) : List Nat :=
  a.Name ++ putUint16 a.Type' ++ putUint16 a.Class ++ putUint32 a.TTL ++
  putUint16 a.RDLength ++ a.RData

/-- `Message.Encode` (main.go:282): header, question, answers,
authorities, additionals, in that order. -/
def Message.Encode (m : Message) : List Nat :=
  m.Header.Encode ++ m.Question.Encode ++ (m.Answers.map Answer.Encode).flatten ++
  (m.Authority.map Answer.Encode).flatten ++ (m.Additional.map Answer.Encode).flatten

/-- `nameCompressed` (main.go:335): tests whether the first byte is
exactly `0xC0`; indexing an empty slice is a panic. -/
def nameCompressed (data : List Nat) : Except Fault Bool :=
  match data with
  | [] => .error .indexOutOfRange
  | b :: _ => .ok (b = 192)

/-- The owner-name phase of `Answer.Decode` (main.go:342-352): a
compressed name is the two pointer bytes copied verbatim (consuming 2),
an uncompressed name is read with `DecodeDomainName`. -/
def answerDecodeName (data : List Nat) : Except Fault (List Nat × Nat) :=
  match nameCompressed data with
  | .error e => .error e
  | .ok true =>
    if data.length < 2 then .error .indexOutOfRange
    else .ok (data.take 2, 2)
  | .ok false =>
    match DecodeDomainName data with
    | .error e => .error e
    | .ok (_, nameOffset) => .ok (data.take nameOffset, nameOffset)

/-- `Answer.Decode` (main.go:339). -/
def Answer.Decode (data : List Nat) : Except Fault (Answer × Nat) := do
  let (name, o) ← answerDecodeName data
  let ty ← readUint16 data o
  let cl ← readUint16 data (o + 2)
  let ttl ← readUint32 data (o + 4)
  let rdlen ← readUint16 data (o + 8)
  if 0 < rdlen then
    if data.length < o + 10 + rdlen then .error .indexOutOfRange
    else .ok ({ Name := name, Type' := ty, Class := cl, TTL := ttl, RDLength := rdlen,
                RData := (data.drop (o + 10)).take rdlen }, o + 10 + rdlen)
  else .ok ({ Name := name, Type' := ty, Class := cl, TTL := ttl, RDLength := rdlen,
              RData := [] }, o + 10)

/-! ## Response cache (`RecordsCache`, main.go:159-181)

The Go map from names to messages is an association list where
assignment replaces the previous binding. -/

abbrev CacheState := List (List Nat × Message)

def mapErase (c : CacheState) (k : List Nat) : CacheState :=
  c.filter (fun kv => kv.1 ≠ k)

def mapInsert (c : CacheState) (k : List Nat) (v : Message) : CacheState :=
  (k, v) :: mapErase c k

def mapGet (c : CacheState) (k : List Nat) : Option Message :=
  (c.find? (fun kv => kv.1 = k)).map (·.2)

/-- `RecordsCache.Get` (main.go:163): a hit whose expiry lies strictly
before `now` is deleted and reported as a miss; otherwise the entry is
returned (by value). -/
def RecordsCache.Get (c : CacheState) (key : List Nat) (now : Nat) :
    CacheState × Option Message :=
  match mapGet c key with
  | some val => if val.Expiry < now then (mapErase c key, none) else (c, some val)
  | none => (c, none)

/-- `RecordsCache.Set` (main.go:174): the expiry is `now` plus the
first answer's TTL in seconds.  `msg.Answers[0]` on a message with no
answers is an index-out-of-range panic. -/
def RecordsCache.Set (c : CacheState) (key : List Nat) (msg : Message) (now : Nat) :
    Except Fault CacheState :=
  match msg.Answers with
  | [] => .error .indexOutOfRange
  | a :: _ => .ok (mapInsert c key { msg with Expiry := now + a.TTL })

/-! ## Zone data and the sinkhole address -/

structure ARecord where
  Name  : List Nat
  Value : List Nat
  TTL   : Nat
  deriving DecidableEq

/-- Only the fields the core reads; `SOA`/`NS` are never consumed. -/
structure Zone where
  Origin : List Nat
  A      : List ARecord
  deriving DecidableEq

/-- Go map read of a missing key yields the zero `Zone` (empty origin). -/
def zoneLookup (zs : List (List Nat × Zone)) (k : List Nat) : Zone :=
  ((zs.find? (fun kv => kv.1 = k)).map (·.2)).getD { Origin := [], A := [] }

/-- One dotted-quad component accepted by Go `net.ParseIP`: one to
three decimal digits, no leading zero, value at most 255. -/
def parseIPv4Part (p : List Nat) : Option Nat :=
  if p ≠ [] ∧ (p.all fun c => 48 ≤ c ∧ c ≤ 57) ∧ (p.length = 1 ∨ p.head? ≠ some 48) ∧
     p.length ≤ 3 then
    let v := p.foldl (fun acc c => acc * 10 + (c - 48)) 0
    if v ≤ 255 then some v else none
  else none

/-- `encodeIP` (main.go:256), for the dotted-quad IPv4 strings the
server feeds it (Go `net.ParseIP` followed by `To4`); a Go nil result
is the empty list. -/
def encodeIP (ip : List Nat) : List Nat :=
  match (ip.splitOn 46).mapM parseIPv4Part with
  | some [a, b, c, d] => [a, b, c, d]
  | _ => []

def sinkIP : List Nat := encodeIP (strBytes "127.0.0.1")

/-! ## Iterative resolver (`Message.Resolve`, main.go:510-540)

The single upstream round-trip `Proxy(msg.Bytes, nameServer)` followed
by `message.Decode(res)` (whose error is ignored by the source) is
abstracted as an oracle from the query bytes and the 4-octet server
address to a decoded reply or a network error.  The name-server string
is the 4 RDATA octets (`net.IPv4(...)` plus `":53"`); `none` stands for
the empty string Go builds when a referral carries no A glue, on which
`Proxy` deterministically fails to resolve the address.  The fuel only
models Go's unbounded recursion: `diverge` means no finite depth
suffices. -/

/-- The root server `198.41.0.4` hard-coded in `BuildResponse`. -/
def rootNS : List Nat := [198, 41, 0, 4]

abbrev Upstream := List Nat → List Nat → Except Unit Message

/-- Set `QR=1`, `RA=1` (main.go:537-538), performed on every successful
return from `Resolve`. -/
def setQRRA (m : Message) : Message :=
  { m with Header := { m.Header with QR := 1, RA := 1 } }

/-- `Message.Resolve` (main.go:510). -/
def Message.Resolve (oracle : Upstream) :
    Nat → Message → Option (List Nat) → Except Fault Message
  | 0, _, _ => .error .diverge
  | _ + 1, _, none => .error .proxyFailed
  | fuel + 1, msg, some ns =>
    match oracle msg.Bytes ns with
    | .error _ => .error .proxyFailed
    | .ok reply =>
      if reply.Header.ANCount ≠ 0 then
        .ok (setQRRA { msg with
          Answers := msg.Answers ++ reply.Answers.filter (fun a => a.Type' = msg.Question.QType) })
      else if reply.Header.NSCount ≠ 0 then
        match reply.Additional.find? (fun a => a.Type' = TypeA) with
        | some add =>
          if add.RData.length < 4 then .error .indexOutOfRange
          else
            match Message.Resolve oracle fuel msg (some (add.RData.take 4)) with
            | .error e => .error e
            | .ok msg' => .ok (setQRRA msg')
        | none =>
          match Message.Resolve oracle fuel msg none with
          | .error e => .error e
          | .ok msg' => .ok (setQRRA msg')
      else .ok (setQRRA msg)

/-! ## Request dispatcher (`Message.BuildResponse`, main.go:542-638) -/

/-- The tail of `BuildResponse` (main.go:621-637): resynchronize the
counts from the actual lists (`uint16(len(...))`), set `QR=1`, and emit
header, question, answers, authorities, additionals — byte for byte the
same sequence as `Message.Encode`.  Returns the final (mutated) message,
the response bytes, and the cache. -/
def buildResponseFinish (msg : Message) (c : CacheState) :
    Message × Option (List Nat) × CacheState :=
  let msg := { msg with Header := { msg.Header with
    QR := 1
    ANCount := msg.Answers.length % 65536
    NSCount := msg.Authority.length % 65536
    ARCount := msg.Additional.length % 65536 } }
  (msg, some msg.Encode, c)

/-- The `case TypeA` loop of the authoritative branch (main.go:594-610):
one answer per zone A record; an encoding failure of the question name
makes `BuildResponse` return a nil slice (`none` here). -/
def zoneARecords (qname : List Nat) (qtype qclass : Nat) :
    List ARecord → Option (List Answer)
  | [] => some []
  | r :: rs =>
    match EncodeDomainName qname with
    | .error _ => none
    | .ok name =>
      (zoneARecords qname qtype qclass rs).map
        (fun rest =>
          { Name := name, Type' := qtype, Class := qclass, TTL := 0,
            RData := encodeIP r.Value, RDLength := (encodeIP r.Value).length } :: rest)

/-- `Message.BuildResponse` (main.go:542).  The result is the mutated
message (the Go method works on `*Message`), the returned bytes (`none`
for Go's `return nil` paths), and the cache after the call.  A `Fault`
is a crash: the `Answers[0]` panic inside `RecordsCache.Set`, the
`log.Fatal` on a resolver error, or divergence of the unbounded
recursion. -/
def Message.BuildResponse (zs : List (List Nat × Zone)) (blocklist : List (List Nat))
    (oracle : Upstream) (fuel now : Nat) (cache : CacheState) (msg : Message) :
    Except Fault (Message × Option (List Nat) × CacheState) :=
  let msg := { msg with Authority := [] }
  let msg := { msg with Header := { msg.Header with RA := 1 } }
  let zone := zoneLookup zs msg.Question.DomainName
  if msg.Question.DomainName ∈ blocklist then
    let msg := { msg with Header := { msg.Header with ARCount := 0, QR := 1, ANCount := 1 } }
    match EncodeDomainName msg.Question.DomainName with
    | .error _ => .ok (msg, none, cache)
    | .ok name =>
      let answer : Answer :=
        { Name := name, Type' := msg.Question.QType, Class := msg.Question.QClass,
          TTL := 0, RData := sinkIP, RDLength := sinkIP.length }
      .ok (buildResponseFinish { msg with Answers := msg.Answers ++ [answer] } cache)
  else
    match RecordsCache.Get cache msg.Question.DomainName now with
    | (cache, some val) =>
      .ok (buildResponseFinish
        { msg with Answers := val.Answers, Authority := val.Authority,
                   Additional := val.Additional } cache)
    | (cache, none) =>
      if zone.Origin = [] then
        match msg.Resolve oracle fuel (some rootNS) with
        | .error .diverge => .error .diverge
        | .error _ =>
          -- the source calls `dnsCache.Set` before checking the error:
          -- either `Set` panics on the empty answer list or `log.Fatal` fires
          match RecordsCache.Set cache msg.Question.DomainName msg now with
          | .error e => .error e
          | .ok _ => .error .logFatal
        | .ok msg =>
          match RecordsCache.Set cache msg.Question.DomainName msg now with
          | .error e => .error e
          | .ok cache => .ok (buildResponseFinish msg cache)
      else
        match
          (if msg.Question.QType = TypeA then
            (zoneARecords msg.Question.DomainName msg.Question.QType msg.Question.QClass
              zone.A).map (fun answers => { msg with Answers := msg.Answers ++ answers })
          else some msg) with
        | none => .ok (msg, none, cache)
        | some msg =>
          let msg := { msg with Header := { msg.Header with
            ARCount := 0, QR := 1, ANCount := msg.Answers.length % 65536 } }
          match RecordsCache.Set cache msg.Question.DomainName msg now with
          | .error e => .error e
          | .ok cache => .ok (buildResponseFinish msg cache)

/-- Wire form of one label: its length octet followed by its octets. -/
def encLabel (p : List Nat) : List Nat := p.length :: p

/-- Decoded form of one label: its octets followed by a dot. -/
def dotLabel (p : List Nat) : List Nat := p ++ [46]

/-! ## Concrete instances used by witnesses and counterexamples -/

/-- ASCII lowercasing, used only to state what "lowercased" means in
the specification's round-trip property. -/
def asciiLower (c : Nat) : Nat := if 65 ≤ c ∧ c ≤ 90 then c + 32 else c

/-- Wire form of `"ads.example."`. -/
def adsName : List Nat := [3, 97, 100, 115, 7, 101, 120, 97, 109, 112, 108, 101, 0]

/-- A name whose decoded textual form is 256 octets long (four 63-octet
labels and their dots). -/
def bigName : List Nat := (List.replicate 4 ((63 : Nat) :: List.replicate 63 97)).flatten ++ [0]

/-- Header of a typical query (ID 0x1234, RD set, one question). -/
def queryHeader : Header :=
  { ID := 4660, QR := 0, Opcode := 0, AA := 0, TC := 0, RD := 1, RA := 0, Z := 0,
    RCODE := 0, QDCount := 1, ANCount := 0, NSCount := 0, ARCount := 0 }

/-- A response-style header exercising several flag fields. -/
def respHeader : Header :=
  { ID := 43981, QR := 1, Opcode := 0, AA := 1, TC := 0, RD := 1, RA := 1, Z := 0,
    RCODE := 0, QDCount := 1, ANCount := 2, NSCount := 0, ARCount := 0 }

def adsQuestion : Question := { DomainName := strBytes "ads.example.", QType := 1, QClass := 1 }

/-- An A answer with TTL 5 seconds. -/
def ansTTL5 : Answer :=
  { Name := [0], Type' := 1, Class := 1, TTL := 5, RDLength := 4, RData := [10, 0, 0, 1] }

/-- An EDNS-OPT-style additional record as a query would carry it. -/
def extraRecord : Answer :=
  { Name := [0], Type' := 41, Class := 4096, TTL := 0, RDLength := 0, RData := [] }

/-- A plain decoded query for `ads.example. A IN` (no answer records). -/
def blockedQuery : Message :=
  { Expiry := 0, Bytes := [], Question := adsQuestion, Answers := [], Authority := [],
    Additional := [], Header := queryHeader }

/-- The same query carrying one additional record. -/
def blockedQueryExtra : Message := { blockedQuery with Additional := [extraRecord] }

/-- A message with one answer of TTL 5, as cached by the server. -/
def cacheMsg : Message := { blockedQuery with Answers := [ansTTL5] }

/-- A message with no answers at all. -/
def noAnswerMsg : Message := blockedQuery

/-- An upstream reply with `ANCount = 0`, `NSCount = 0`: no matching
answer and nothing to follow. -/
def emptyReply : Message := { blockedQuery with Header := { queryHeader with QR := 1 } }

/-- An upstream that always replies with `emptyReply`. -/
def emptyUpstream : Upstream := fun _ _ => .ok emptyReply

/-- An A-type glue record whose address is the root server itself. -/
def glueAnswer : Answer :=
  { Name := [192, 12], Type' := 1, Class := 1, TTL := 0, RDLength := 4, RData := rootNS }

/-- A referral (NSCount = 1) whose only glue points back at the sender:
an endless referral chain. -/
def referralReply : Message :=
  { blockedQuery with
    Authority := [glueAnswer], Additional := [glueAnswer],
    Header := { queryHeader with QR := 1, NSCount := 1, ARCount := 1 } }

/-- An upstream that always replies with the self-referral. -/
def referralUpstream : Upstream := fun _ _ => .ok referralReply

/-- The answer the sinkhole branch synthesizes. -/
def sinkholeAnswer (msg : Message) (nm : List Nat) : Answer :=
  { Name := nm, Type' := msg.Question.QType, Class := msg.Question.QClass,
    TTL := 0, RData := sinkIP, RDLength := sinkIP.length }

/-- The final message state of the sinkhole path of `BuildResponse`. -/
def sinkholeMsg (msg : Message) (nm : List Nat) : Message :=
  { msg with
    Authority := []
    Answers := msg.Answers ++ [sinkholeAnswer msg nm]
    Header := { msg.Header with
      QR := 1, RA := 1
      ANCount := (msg.Answers.length + 1) % 65536
      NSCount := 0
      ARCount := msg.Additional.length % 65536 } }

/-- The concrete final message of `BuildResponse` on the sinkhole path
for `blockedQuery` (used by the C10 witness). -/
def c10Msg : Message :=
  { Expiry := 0, Bytes := [], Question := adsQuestion,
    Answers := [{ Name := adsName, Type' := 1, Class := 1, TTL := 0,
                  RData := [127, 0, 0, 1], RDLength := 4 }],
    Authority := [], Additional := [],
    Header := { ID := 4660, QR := 1, Opcode := 0, AA := 0, TC := 0, RD := 1, RA := 1,
                Z := 0, RCODE := 0, QDCount := 1, ANCount := 1, NSCount := 0, ARCount := 0 } }


example : EncodeDomainName (strBytes "example.com") =
    .ok [7, 101, 120, 97, 109, 112, 108, 101, 3, 99, 111, 109, 0] := by decide
example : EncodeDomainName (strBytes "example.com.") =
    .ok [7, 101, 120, 97, 109, 112, 108, 101, 3, 99, 111, 109, 0] := by decide
example : EncodeDomainName (strBytes "") = .ok [0] := by decide
example : DecodeDomainName [7, 101, 120, 97, 109, 112, 108, 101, 3, 99, 111, 109, 0] =
    .ok (strBytes "example.com.", 13) := by decide
example : DecodeDomainName [100, 101, 120, 97, 109, 112, 108, 101, 0] =
    .error .invalidName := by decide
example : DecodeDomainName [1, 97] = .error .indexOutOfRange := by decide

example : EncodeDomainName (strBytes "ads.example.") = .ok adsName := by decide

example : sinkIP = [127, 0, 0, 1] := by decide

/-! ## Properties of the encoder -/

/-! ## Properties of the encoder -/

theorem encodeLabels_ok (ps : List (List Nat)) (h : ∀ p ∈ ps, p.length ≤ 63) :
    encodeLabels ps = .ok ((ps.map encLabel).flatten ++ [0]) := by
  induction ps with
  | nil => simp [encodeLabels]
  | cons p ps ih =>
    have hp := h p (by simp)
    rw [encodeLabels, if_neg (by omega), ih (fun q hq => h q (by simp [hq]))]
    simp [Except.map, encLabel]

theorem encodeLabels_err (ps : List (List Nat)) (p : List Nat) (hp : p ∈ ps)
    (h : 63 < p.length) : encodeLabels ps = .error .labelTooLong := by
  induction ps with
  | nil => cases hp
  | cons q ps ih =>
    rw [encodeLabels]
    by_cases hq : 63 < q.length
    · rw [if_pos hq]
    · rw [if_neg hq]
      rcases List.mem_cons.mp hp with rfl | hmem
      · exact absurd h hq
      · rw [ih hmem]; rfl

/-- C9: domain-name encoding strips a single trailing dot, maps the
empty string and the lone dot to `{0x00}`, emits each label as one
length octet followed by the label's octets with a terminating zero
octet, and fails with the label-too-long error exactly when some label
exceeds 63 octets; a 63-octet label succeeds and a 64-octet one fails. -/
theorem C9_encode_characterization :
    (∀ dn : List Nat,
      EncodeDomainName dn =
        if dn = [] ∨ dn = [46] then .ok [0]
        else if ((trimSuffixDot dn).splitOn 46).all (fun p => p.length ≤ 63) then
          .ok ((((trimSuffixDot dn).splitOn 46).map encLabel).flatten ++ [0])
        else .error .labelTooLong) ∧
    EncodeDomainName (List.replicate 63 97) = .ok (63 :: (List.replicate 63 97 ++ [0])) ∧
    EncodeDomainName (List.replicate 64 97) = .error .labelTooLong := by
  refine ⟨fun dn => ?_, by decide, by decide⟩
  unfold EncodeDomainName
  by_cases h0 : dn = [] ∨ dn = [46]
  · simp [h0]
  · rw [if_neg h0, if_neg h0]
    by_cases hall : ((trimSuffixDot dn).splitOn 46).all (fun p => p.length ≤ 63)
    · rw [if_pos hall]
      exact encodeLabels_ok _ (by simpa [List.all_eq_true] using hall)
    · rw [if_neg hall]
      simp only [List.all_eq_true, decide_eq_true_eq, not_forall] at hall
      obtain ⟨p, hp, hlen⟩ := hall
      exact encodeLabels_err _ p hp (by omega)

/-! ## Properties of the decoder and the round trip -/

theorem length_le_encoded (ps : List (List Nat)) :
    ps.length ≤ ((ps.map encLabel).flatten).length := by
  induction ps with
  | nil => simp
  | cons p ps ih =>
    simp only [List.map_cons, List.flatten_cons, List.length_append, List.length_cons, encLabel]
    omega

theorem decodeLoop_encoded (ps : List (List Nat)) :
    ∀ (pre dn : List Nat) (fuel : Nat),
      (∀ p ∈ ps, 1 ≤ p.length ∧ p.length ≤ 63) → ps.length < fuel →
      decodeLoop (pre ++ ((ps.map encLabel).flatten ++ [0])) fuel dn pre.length
        = .ok (dn ++ (ps.map dotLabel).flatten,
               (pre ++ ((ps.map encLabel).flatten ++ [0])).length) := by
  induction ps with
  | nil =>
    intro pre dn fuel _ hf
    obtain ⟨f, rfl⟩ : ∃ f, fuel = f + 1 := ⟨fuel - 1, by omega⟩
    simp only [List.map_nil, List.flatten_nil, List.nil_append]
    rw [decodeLoop]
    have hget : (pre ++ [0])[pre.length]? = some 0 := by
      rw [List.getElem?_append_right (le_refl _)]
      simp
    simp [hget]
  | cons p ps ih =>
    intro pre dn fuel h hf
    obtain ⟨hp1, _⟩ := h p (List.mem_cons_self p ps)
    obtain ⟨f, rfl⟩ : ∃ f, fuel = f + 1 := ⟨fuel - 1, by omega⟩
    simp only [List.map_cons, List.flatten_cons]
    rw [decodeLoop]
    have hget : (pre ++ ((encLabel p ++ (ps.map encLabel).flatten) ++ [0]))[pre.length]?
        = some p.length := by
      rw [List.getElem?_append_right (le_refl _)]
      simp [encLabel]
    simp only [hget]
    rw [if_neg (show ¬ (p.length = 0) by omega)]
    rw [if_neg (by simp [encLabel, List.length_append]; omega)]
    have hdrop : (pre ++ ((encLabel p ++ (ps.map encLabel).flatten) ++ [0])).drop (pre.length + 1)
        = p ++ ((ps.map encLabel).flatten ++ [0]) := by
      have hsplit : pre ++ ((encLabel p ++ (ps.map encLabel).flatten) ++ [0])
          = (pre ++ [p.length]) ++ (p ++ ((ps.map encLabel).flatten ++ [0])) := by
        simp [encLabel]
      rw [hsplit]
      have hl : pre.length + 1 = (pre ++ [p.length]).length := by simp
      rw [hl, List.drop_left]
    rw [hdrop, List.take_left]
    have harg : pre ++ ((encLabel p ++ (ps.map encLabel).flatten) ++ [0])
        = (pre ++ encLabel p) ++ ((ps.map encLabel).flatten ++ [0]) := by
      simp [encLabel]
    have hidx : pre.length + p.length + 1 = (pre ++ encLabel p).length := by
      simp [encLabel, List.length_append]
      omega
    rw [harg, hidx,
        ih (pre ++ encLabel p) (dn ++ (p ++ [46])) f
          (fun q hq => h q (List.mem_cons_of_mem p hq))
          (by have := hf; simp only [List.length_cons] at this; omega)]
    simp [encLabel, dotLabel, List.length_append]

theorem dotJoin_intercalate (a : List Nat) (ps : List (List Nat)) :
    ((a :: ps).map dotLabel).flatten = [46].intercalate (a :: ps) ++ [46] := by
  induction ps generalizing a with
  | nil => simp [List.intercalate, dotLabel]
  | cons b ps ih =>
    calc ((a :: b :: ps).map dotLabel).flatten
        = (a ++ [46]) ++ ((b :: ps).map dotLabel).flatten := by simp [dotLabel]
      _ = (a ++ [46]) ++ ([46].intercalate (b :: ps) ++ [46]) := by rw [ih b]
      _ = [46].intercalate (a :: b :: ps) ++ [46] := by
          simp [List.intercalate, List.intersperse_cons_cons, List.append_assoc]

/-- C1 (amended): for every textual name whose labels (after stripping
a single trailing dot) are all between 1 and 63 octets — and for the
empty name and the lone dot — decoding the encoding yields the name
with exactly one trailing dot and its character case preserved: the
code performs no lowercasing anywhere. -/
theorem C1_roundtrip_preserves_case (dn : List Nat)
    (h : dn = [] ∨ dn = [46] ∨
         ∀ p ∈ (trimSuffixDot dn).splitOn 46, 1 ≤ p.length ∧ p.length ≤ 63) :
    (EncodeDomainName dn).map (fun bs => (DecodeDomainName bs).map Prod.fst)
      = .ok (.ok (trimSuffixDot dn ++ [46])) := by
  by_cases h0 : dn = [] ∨ dn = [46]
  · rcases h0 with rfl | rfl <;> decide
  · have h3 : ∀ p ∈ (trimSuffixDot dn).splitOn 46, 1 ≤ p.length ∧ p.length ≤ 63 := by
      rcases h with rfl | rfl | h3
      · exact absurd (Or.inl rfl) h0
      · exact absurd (Or.inr rfl) h0
      · exact h3
    obtain ⟨a, ps, hps⟩ : ∃ a ps, (trimSuffixDot dn).splitOn 46 = a :: ps := by
      rcases hsp : (trimSuffixDot dn).splitOn 46 with _ | ⟨a, ps⟩
      · exact absurd (by simpa [List.splitOn] using hsp) (List.splitOnP_ne_nil _ _)
      · exact ⟨a, ps, rfl⟩
    unfold EncodeDomainName
    rw [if_neg h0, hps, encodeLabels_ok _ (fun p hp => (h3 p (hps ▸ hp)).2)]
    simp only [Except.map]
    congr 1
    have ha1 : 1 ≤ a.length := (h3 a (hps ▸ List.mem_cons_self a ps)).1
    unfold DecodeDomainName
    rw [if_neg (by
      simp only [List.map_cons, List.flatten_cons, encLabel]
      intro heq
      have hlen := congrArg List.length heq
      simp only [List.length_append, List.length_cons, List.length_nil] at hlen
      omega)]
    have hfuel : (a :: ps).length <
        (((a :: ps).map encLabel).flatten ++ [0]).length + 1 := by
      have := length_le_encoded (a :: ps)
      simp only [List.length_append, List.length_cons] at this ⊢
      omega
    have hloop := decodeLoop_encoded (a :: ps) [] []
      ((((a :: ps).map encLabel).flatten ++ [0]).length + 1)
      (fun p hp => h3 p (hps ▸ hp)) hfuel
    simp only [List.nil_append, List.length_nil] at hloop
    rw [hloop]
    rw [dotJoin_intercalate a ps, ← hps, List.intercalate_splitOn]

/-- C1 counterexample: the round trip does not lowercase.  Encoding the
single-letter name `"A"` and decoding the result yields `"A."`, not the
`"a."` the specification's `lowercase(N)` demands. -/
theorem C1_no_lowercasing :
    EncodeDomainName (strBytes "A") = .ok [1, 65, 0] ∧
    (DecodeDomainName [1, 65, 0]).map Prod.fst = .ok (strBytes "A" ++ [46]) ∧
    (DecodeDomainName [1, 65, 0]).map Prod.fst ≠
      .ok ((strBytes "A").map asciiLower ++ [46]) := by
  refine ⟨by decide, by decide, by decide⟩

/-- C1 witness: the round trip at the concrete mixed-case name `"Ex.Com"`. -/
theorem C1_roundtrip_witness :
    (EncodeDomainName (strBytes "Ex.Com")).map (fun bs => (DecodeDomainName bs).map Prod.fst)
      = .ok (.ok (trimSuffixDot (strBytes "Ex.Com") ++ [46])) :=
  C1_roundtrip_preserves_case _ (Or.inr (Or.inr (by decide)))

/-- C2 counterexample: on `{0xC0, 0x02, 3, 'a', 'b', 'c', 0}` the claim
predicts pointer dereference — decoding `"abc."` from offset 2 with 2
bytes consumed — but `DecodeDomainName` treats `0xC0 = 192` as a label
length overrunning the slice and returns the invalid-name error. -/
theorem C2_no_pointer_following :
    DecodeDomainName [192, 2, 3, 97, 98, 99, 0] = .error .invalidName ∧
    DecodeDomainName [192, 2, 3, 97, 98, 99, 0] ≠ .ok (strBytes "abc" ++ [46], 2) := by
  exact ⟨by decide, by decide⟩

/-- C2 (amended): the name decoder interprets no compression pointers:
every nonzero leading byte — `0xC0` included — is a literal label
length, and the decode fails with the invalid-name error exactly when
that length overruns the slice.  Only `Answer.Decode` looks at the
first byte: when it is exactly `0xC0` the two pointer bytes are copied
verbatim (2 bytes consumed) without dereferencing.  There is no
255-octet limit on decoded names (a 256-octet name decodes fine) and no
visited-offset tracking. -/
theorem C2_decoder_behavior :
    (∀ (b : Nat) (rest : List Nat), b ≠ 0 → rest.length < b →
      DecodeDomainName (b :: rest) = .error .invalidName) ∧
    (∀ data : List Nat, data[0]? = some 192 → 2 ≤ data.length →
      answerDecodeName data = .ok (data.take 2, 2)) ∧
    (DecodeDomainName bigName).map (fun r => r.1.length) = .ok 256 := by
  refine ⟨?_, ?_, by decide⟩
  · intro b rest hb hlt
    unfold DecodeDomainName
    rw [if_neg (by
      intro heq
      have := List.head_eq_of_cons_eq heq
      exact hb this)]
    rw [show (b :: rest).length + 1 = (rest.length + 1) + 1 from by simp]
    rw [decodeLoop]
    simp only [List.getElem?_cons_zero]
    rw [if_neg hb]
    rw [if_pos (by simp only [List.length_cons]; omega)]
  · intro data h0 h2
    rcases data with _ | ⟨b, tl⟩
    · simp at h0
    · have hb : b = 192 := by simpa using h0
      subst hb
      have hnc : nameCompressed (192 :: tl) = .ok true := by simp [nameCompressed]
      unfold answerDecodeName
      simp only [hnc]
      rw [if_neg (by simp only [List.length_cons] at h2 ⊢; omega)]

/-- C2 witness: the overrun error and the verbatim pointer copy at
concrete inputs. -/
theorem C2_decoder_behavior_witness :
    DecodeDomainName (99 :: strBytes "ab") = .error .invalidName ∧
    answerDecodeName [192, 12, 0, 1, 0, 1, 0, 0, 0, 0, 0, 0] = .ok ([192, 12], 2) :=
  ⟨C2_decoder_behavior.1 99 (strBytes "ab") (by decide) (by decide),
   C2_decoder_behavior.2.1 [192, 12, 0, 1, 0, 1, 0, 0, 0, 0, 0, 0] (by decide) (by decide)⟩

/-! ## Header flag word arithmetic -/

theorem lor_eq_add_of_lt (k a b : Nat) (ha : 2 ^ k ∣ a) (hb : b < 2 ^ k) :
    a ||| b = a + b := by
  induction k generalizing a b with
  | zero =>
    rw [pow_zero] at hb
    have hb0 : b = 0 := by omega
    subst hb0
    simp
  | succ k ih =>
    obtain ⟨m, rfl⟩ := ha
    have h2 : (2 : Nat) ^ (k + 1) = 2 * 2 ^ k := by rw [pow_succ]; ring
    have e1 : 2 ^ (k + 1) * m = Nat.bit false (2 ^ k * m) := by
      simp only [Nat.bit_val, Bool.toNat_false, add_zero]
      rw [h2]; ring
    have e2 : b = Nat.bit (decide (b % 2 = 1)) (b / 2) := by
      simp only [Nat.bit_val]
      rcases Nat.mod_two_eq_zero_or_one b with h | h <;> simp [h] <;> omega
    rw [e1, e2, Nat.lor_bit]
    rw [ih (2 ^ k * m) (b / 2) ⟨m, rfl⟩ (by omega)]
    simp only [Bool.false_or, Nat.bit_val]
    rcases Nat.mod_two_eq_zero_or_one b with h | h <;> simp [h] <;> omega

theorem lor_eq_add_of_lt' (k c a b : Nat) (hc : c = 2 ^ k) (ha : c ∣ a) (hb : b < c) :
    a ||| b = a + b := by
  subst hc
  exact lor_eq_add_of_lt k a b ha hb

theorem flags_or_eq_sum (QR Op AA TC RD RA Z RC : Nat) (hQR : QR ≤ 1) (hOp : Op < 16)
    (hAA : AA ≤ 1) (hTC : TC ≤ 1) (hRD : RD ≤ 1) (hRA : RA ≤ 1) (hZ : Z < 8) (hRC : RC < 16) :
    QR <<< 15 ||| Op <<< 11 ||| AA <<< 10 ||| TC <<< 9 ||| RD <<< 8 ||| RA <<< 7 |||
      Z <<< 4 ||| RC
    = QR * 32768 + Op * 2048 + AA * 1024 + TC * 512 + RD * 256 + RA * 128 + Z * 16 + RC := by
  simp only [Nat.shiftLeft_eq,
    (by norm_num : (2 : Nat) ^ 15 = 32768), (by norm_num : (2 : Nat) ^ 11 = 2048),
    (by norm_num : (2 : Nat) ^ 10 = 1024), (by norm_num : (2 : Nat) ^ 9 = 512),
    (by norm_num : (2 : Nat) ^ 8 = 256), (by norm_num : (2 : Nat) ^ 7 = 128),
    (by norm_num : (2 : Nat) ^ 4 = 16)]
  rw [lor_eq_add_of_lt' 15 32768 _ _ (by norm_num) (dvd_mul_left 32768 QR) (by omega)]
  rw [lor_eq_add_of_lt' 11 2048 _ _ (by norm_num)
    ((⟨QR * 16 + Op, by ring⟩ : (2048 : Nat) ∣ QR * 32768 + Op * 2048)) (by omega)]
  rw [lor_eq_add_of_lt' 10 1024 _ _ (by norm_num)
    ((⟨QR * 32 + Op * 2 + AA, by ring⟩ :
      (1024 : Nat) ∣ QR * 32768 + Op * 2048 + AA * 1024)) (by omega)]
  rw [lor_eq_add_of_lt' 9 512 _ _ (by norm_num)
    ((⟨QR * 64 + Op * 4 + AA * 2 + TC, by ring⟩ :
      (512 : Nat) ∣ QR * 32768 + Op * 2048 + AA * 1024 + TC * 512)) (by omega)]
  rw [lor_eq_add_of_lt' 8 256 _ _ (by norm_num)
    ((⟨QR * 128 + Op * 8 + AA * 4 + TC * 2 + RD, by ring⟩ :
      (256 : Nat) ∣ QR * 32768 + Op * 2048 + AA * 1024 + TC * 512 + RD * 256)) (by omega)]
  rw [lor_eq_add_of_lt' 7 128 _ _ (by norm_num)
    ((⟨QR * 256 + Op * 16 + AA * 8 + TC * 4 + RD * 2 + RA, by ring⟩ :
      (128 : Nat) ∣ QR * 32768 + Op * 2048 + AA * 1024 + TC * 512 + RD * 256 + RA * 128))
    (by omega)]
  rw [lor_eq_add_of_lt' 4 16 _ _ (by norm_num)
    ((⟨QR * 2048 + Op * 128 + AA * 64 + TC * 32 + RD * 16 + RA * 8 + Z, by ring⟩ :
      (16 : Nat) ∣ QR * 32768 + Op * 2048 + AA * 1024 + TC * 512 + RD * 256 + RA * 128 + Z * 16))
    hRC]

theorem land_15_eq_mod (x : Nat) : x &&& 15 = x % 16 := by
  have := Nat.and_pow_two_sub_one_eq_mod x 4
  norm_num at this
  exact this

theorem land_7_eq_mod (x : Nat) : x &&& 7 = x % 8 := by
  have := Nat.and_pow_two_sub_one_eq_mod x 3
  norm_num at this
  exact this

theorem land_1_eq_mod (x : Nat) : x &&& 1 = x % 2 := Nat.and_one_is_mod x

/-- C6: for a header with all fields in range, the second 16-bit word
of the 12-byte encoding is `QR<<15 | Opcode<<11 | AA<<10 | TC<<9 |
RD<<8 | RA<<7 | Z<<4 | RCODE`, all four counts (and every other word)
are big-endian, and decoding the encoding restores every field
bit-exactly. -/
theorem C6_header_roundtrip (h : Header)
    (hID : h.ID < 65536) (hQR : h.QR ≤ 1) (hOp : h.Opcode < 16) (hAA : h.AA ≤ 1)
    (hTC : h.TC ≤ 1) (hRD : h.RD ≤ 1) (hRA : h.RA ≤ 1) (hZ : h.Z < 8) (hRC : h.RCODE < 16)
    (hQD : h.QDCount < 65536) (hAN : h.ANCount < 65536) (hNS : h.NSCount < 65536)
    (hAR : h.ARCount < 65536) :
    word16 h.Encode 2 =
      (h.QR <<< 15 ||| h.Opcode <<< 11 ||| h.AA <<< 10 ||| h.TC <<< 9 |||
       h.RD <<< 8 ||| h.RA <<< 7 ||| h.Z <<< 4 ||| h.RCODE) ∧
    h.Encode = [h.ID / 256, h.ID % 256, h.flags / 256, h.flags % 256,
      h.QDCount / 256, h.QDCount % 256, h.ANCount / 256, h.ANCount % 256,
      h.NSCount / 256, h.NSCount % 256, h.ARCount / 256, h.ARCount % 256] ∧
    Header.Decode h.Encode = .ok h := by
  have hor := flags_or_eq_sum h.QR h.Opcode h.AA h.TC h.RD h.RA h.Z h.RCODE
    hQR hOp hAA hTC hRD hRA hZ hRC
  have hfl : h.flags = h.QR * 32768 + h.Opcode * 2048 + h.AA * 1024 + h.TC * 512 +
      h.RD * 256 + h.RA * 128 + h.Z * 16 + h.RCODE := by
    unfold Header.flags
    rw [hor]
    exact Nat.mod_eq_of_lt (by omega)
  have hflt : h.flags < 65536 := by rw [hfl]; omega
  have henc : h.Encode = [h.ID / 256, h.ID % 256, h.flags / 256, h.flags % 256,
      h.QDCount / 256, h.QDCount % 256, h.ANCount / 256, h.ANCount % 256,
      h.NSCount / 256, h.NSCount % 256, h.ARCount / 256, h.ARCount % 256] := by
    unfold Header.Encode putUint16
    rw [Nat.mod_eq_of_lt hID, Nat.mod_eq_of_lt hflt, Nat.mod_eq_of_lt hQD,
        Nat.mod_eq_of_lt hAN, Nat.mod_eq_of_lt hNS, Nat.mod_eq_of_lt hAR]
    rfl
  refine ⟨?_, henc, ?_⟩
  · have hw : word16 h.Encode 2 = h.flags := by
      rw [henc]
      simp only [word16, List.getD_cons_zero, List.getD_cons_succ]
      omega
    rw [hw, hfl, hor]
  · rw [henc]
    unfold Header.Decode
    rw [if_neg (by simp)]
    congr 1
    have heta : h = ({
        ID := h.ID, QR := h.QR, Opcode := h.Opcode, AA := h.AA, TC := h.TC,
        RD := h.RD, RA := h.RA, Z := h.Z, RCODE := h.RCODE, QDCount := h.QDCount,
        ANCount := h.ANCount, NSCount := h.NSCount, ARCount := h.ARCount } : Header) := rfl
    conv_rhs => rw [heta]
    simp only [Header.mk.injEq]
    simp only [word16, List.getD_cons_zero, List.getD_cons_succ]
    refine ⟨?_, ?_, ?_, ?_, ?_, ?_, ?_, ?_, ?_, ?_, ?_, ?_, ?_⟩ <;>
      (try simp only [Nat.shiftRight_eq_div_pow, land_15_eq_mod, land_7_eq_mod, land_1_eq_mod,
        (by norm_num : (2 : Nat) ^ 15 = 32768), (by norm_num : (2 : Nat) ^ 11 = 2048),
        (by norm_num : (2 : Nat) ^ 10 = 1024), (by norm_num : (2 : Nat) ^ 9 = 512),
        (by norm_num : (2 : Nat) ^ 8 = 256), (by norm_num : (2 : Nat) ^ 7 = 128),
        (by norm_num : (2 : Nat) ^ 4 = 16), hfl]) <;>
      omega

/-- C6 witness: the round trip at a concrete response header. -/
theorem C6_header_roundtrip_witness :
    word16 respHeader.Encode 2 =
      (respHeader.QR <<< 15 ||| respHeader.Opcode <<< 11 ||| respHeader.AA <<< 10 |||
       respHeader.TC <<< 9 ||| respHeader.RD <<< 8 ||| respHeader.RA <<< 7 |||
       respHeader.Z <<< 4 ||| respHeader.RCODE) ∧
    Header.Decode respHeader.Encode = .ok respHeader :=
  have h := C6_header_roundtrip respHeader (by decide) (by decide) (by decide) (by decide)
    (by decide) (by decide) (by decide) (by decide) (by decide) (by decide) (by decide)
    (by decide) (by decide)
  ⟨h.1, h.2.2⟩

/-- C8 (code bug): for every input shorter than 12 bytes, `Header.Decode`
does read past the end of the input — the very first field read slices
out of range, a runtime panic that crashes the process — instead of
failing with a `ShortMessage` error and dropping the datagram (no such
error value exists in the source). -/
theorem C8_short_header_panics (data : List Nat) (h : data.length < 12) :
    Header.Decode data = .error .indexOutOfRange := by
  unfold Header.Decode
  rw [if_pos h]

/-- C8 witness: the panic at the empty datagram. -/
theorem C8_short_header_panics_witness :
    Header.Decode [] = .error .indexOutOfRange :=
  C8_short_header_panics [] (by decide)

/-! ## Cache properties -/

theorem mapGet_insert (c : CacheState) (k : List Nat) (v : Message) :
    mapGet (mapInsert c k v) k = some v := by
  simp [mapGet, mapInsert, List.find?]

/-- C3 (amended): after `set(name, msg)` at time `t` with a first-answer
TTL of `ttl` seconds, `get(name)` returns the stored message (the input
with its expiry set to `t + ttl`) at every instant up to AND INCLUDING
the expiry `t + ttl`, and only at instants strictly after the expiry
returns nothing and removes the entry (the code deletes when
`expiry < now`, not when `now ≥ expiry`). -/
theorem C3_cache_roundtrip (c : CacheState) (key : List Nat) (msg : Message)
    (now0 now : Nat) (a : Answer) (rest : List Answer) (hA : msg.Answers = a :: rest) :
    RecordsCache.Set c key msg now0
      = .ok (mapInsert c key { msg with Expiry := now0 + a.TTL }) ∧
    (now ≤ now0 + a.TTL →
      RecordsCache.Get (mapInsert c key { msg with Expiry := now0 + a.TTL }) key now
        = (mapInsert c key { msg with Expiry := now0 + a.TTL },
           some { msg with Expiry := now0 + a.TTL })) ∧
    (now0 + a.TTL < now →
      RecordsCache.Get (mapInsert c key { msg with Expiry := now0 + a.TTL }) key now
        = (mapErase (mapInsert c key { msg with Expiry := now0 + a.TTL }) key, none)) := by
  refine ⟨by simp [RecordsCache.Set, hA], ?_, ?_⟩
  · intro hle
    unfold RecordsCache.Get
    simp only [mapGet_insert]
    rw [if_neg (by simp; omega)]
  · intro hlt
    unfold RecordsCache.Get
    simp only [mapGet_insert]
    rw [if_pos (by simpa using hlt)]

/-- C3 counterexample: the boundary instant.  An entry inserted at time
0 with TTL 5 expires at 5, yet `get` at `now = 5` still returns the
message (the claim demands absence at every `now ≥ expiry`). -/
theorem C3_expiry_boundary :
    RecordsCache.Set [] (strBytes "a") cacheMsg 0
      = .ok [((strBytes "a"), { cacheMsg with Expiry := 5 })] ∧
    (RecordsCache.Get [((strBytes "a"), { cacheMsg with Expiry := 5 })] (strBytes "a") 5).2
      ≠ none := by
  exact ⟨by decide, by decide⟩

/-- C3 witness: the round trip at a concrete entry, before (now = 3)
and after (now = 9) the expiry 5. -/
theorem C3_cache_roundtrip_witness :
    RecordsCache.Set [] (strBytes "a") cacheMsg 0
      = .ok (mapInsert [] (strBytes "a") { cacheMsg with Expiry := 5 }) ∧
    RecordsCache.Get (mapInsert [] (strBytes "a") { cacheMsg with Expiry := 5 }) (strBytes "a") 3
      = (mapInsert [] (strBytes "a") { cacheMsg with Expiry := 5 },
         some { cacheMsg with Expiry := 5 }) ∧
    RecordsCache.Get (mapInsert [] (strBytes "a") { cacheMsg with Expiry := 5 }) (strBytes "a") 9
      = (mapErase (mapInsert [] (strBytes "a") { cacheMsg with Expiry := 5 }) (strBytes "a"),
         none) := by
  have h3 := C3_cache_roundtrip [] (strBytes "a") cacheMsg 0 3 ansTTL5 [] rfl
  have h9 := C3_cache_roundtrip [] (strBytes "a") cacheMsg 0 9 ansTTL5 [] rfl
  exact ⟨h3.1, h3.2.1 (by decide), h9.2.2 (by decide)⟩

/-- C7 (code bug): `set` on a message whose answer list is empty does
not leave the cache unchanged — `msg.Answers[0]` panics (index out of
range), crashing the process; for messages with at least one answer the
stored expiry is `now` plus the first answer's TTL, as claimed. -/
theorem C7_set_empty_answers :
    RecordsCache.Set [] (strBytes "a") noAnswerMsg 7 = .error .indexOutOfRange ∧
    (∀ (c : CacheState) (k : List Nat) (m : Message) (now : Nat) (a : Answer)
      (r : List Answer), m.Answers = a :: r →
      RecordsCache.Set c k m now = .ok (mapInsert c k { m with Expiry := now + a.TTL })) := by
  refine ⟨by decide, ?_⟩
  intro c k m now a r hA
  simp [RecordsCache.Set, hA]

/-- C7 witness: the panic at the empty-answer message and the stored
expiry at a concrete message with one answer of TTL 5 set at time 3. -/
theorem C7_set_empty_answers_witness :
    RecordsCache.Set [] (strBytes "k") cacheMsg 3
      = .ok (mapInsert [] (strBytes "k") { cacheMsg with Expiry := 8 }) :=
  C7_set_empty_answers.2 [] (strBytes "k") cacheMsg 3 ansTTL5 [] rfl

/-! ## Resolver properties -/

/-- C4 (code bug): the iterative resolver has no depth bound and no
`Unresolvable` failure.  When the upstream reply has neither a matching
answer nor a referral (`ANCount = 0`, `NSCount = 0`), `Resolve` returns
SUCCESS with an empty answer list instead of failing; and against an
upstream that always answers with a self-referral carrying A glue, the
recursion exhausts every finite depth (no fuel suffices — the Go code
recurses forever). -/
theorem C4_resolver_no_bound_no_unresolvable :
    Message.Resolve emptyUpstream 1 blockedQuery (some rootNS) = .ok (setQRRA blockedQuery) ∧
    (setQRRA blockedQuery).Answers = [] ∧
    (∀ (fuel : Nat) (msg : Message),
      Message.Resolve referralUpstream fuel msg (some rootNS) = .error .diverge) := by
  refine ⟨by decide, by decide, ?_⟩
  intro fuel
  induction fuel with
  | zero => intro msg; rfl
  | succ n ih =>
    intro msg
    rw [Message.Resolve]
    have hrec : Message.Resolve referralUpstream n msg (some [198, 41, 0, 4])
        = .error .diverge := by
      simpa [rootNS] using ih msg
    simp [referralUpstream, referralReply, glueAnswer, queryHeader, blockedQuery, TypeA,
      rootNS, hrec]

theorem resolve_ok_QR_RA (oracle : Upstream) :
    ∀ (fuel : Nat) (msg : Message) (ns : Option (List Nat)) (m : Message),
      Message.Resolve oracle fuel msg ns = .ok m → m.Header.QR = 1 ∧ m.Header.RA = 1 := by
  intro fuel
  induction fuel with
  | zero =>
    intro msg ns m h
    exact absurd h (by rw [Message.Resolve]; simp)
  | succ n _ =>
    intro msg ns m h
    rcases ns with _ | ns
    · exact absurd h (by rw [Message.Resolve]; simp)
    · rw [Message.Resolve] at h
      rcases ho : oracle msg.Bytes ns with e | reply
      · simp only [ho] at h
        exact absurd h (by simp)
      · simp only [ho] at h
        by_cases hAN : reply.Header.ANCount ≠ 0
        · rw [if_pos hAN] at h
          injection h with h
          subst h
          exact ⟨rfl, rfl⟩
        · rw [if_neg hAN] at h
          by_cases hNS : reply.Header.NSCount ≠ 0
          · rw [if_pos hNS] at h
            rcases hfind : List.find? (fun a => decide (a.Type' = TypeA)) reply.Additional
              with _ | add
            · simp only [hfind] at h
              rcases hr : Message.Resolve oracle n msg none with e | mr
              · simp only [hr] at h
                exact absurd h (by simp)
              · simp only [hr] at h
                injection h with h
                subst h
                exact ⟨rfl, rfl⟩
            · simp only [hfind] at h
              by_cases hlen : add.RData.length < 4
              · rw [if_pos hlen] at h
                exact absurd h (by simp)
              · rw [if_neg hlen] at h
                rcases hr : Message.Resolve oracle n msg (some (add.RData.take 4)) with e | mr
                · simp only [hr] at h
                  exact absurd h (by simp)
                · simp only [hr] at h
                  injection h with h
                  subst h
                  exact ⟨rfl, rfl⟩
          · rw [if_neg hNS] at h
            injection h with h
            subst h
            exact ⟨rfl, rfl⟩

theorem buildResponseFinish_eq (m0 m' : Message) (c0 c' : CacheState) (bs : List Nat)
    (hRA : m0.Header.RA = 1)
    (hf : buildResponseFinish m0 c0 = (m', some bs, c')) :
    m'.Header.RA = 1 ∧
    m'.Header.ANCount = m'.Answers.length % 65536 ∧
    m'.Header.NSCount = m'.Authority.length % 65536 ∧
    m'.Header.ARCount = m'.Additional.length % 65536 ∧
    (m'.Answers.length < 65536 → m'.Header.ANCount = m'.Answers.length) ∧
    (m'.Authority.length < 65536 → m'.Header.NSCount = m'.Authority.length) ∧
    (m'.Additional.length < 65536 → m'.Header.ARCount = m'.Additional.length) ∧
    bs = m'.Encode := by
  unfold buildResponseFinish at hf
  simp only [Prod.mk.injEq, Option.some.injEq] at hf
  obtain ⟨rfl, rfl, rfl⟩ := hf
  exact ⟨hRA, rfl, rfl, rfl, fun h => Nat.mod_eq_of_lt h, fun h => Nat.mod_eq_of_lt h,
    fun h => Nat.mod_eq_of_lt h, rfl⟩

/-- C10: every byte response `BuildResponse` actually returns — on the
sinkhole, cache-hit, authoritative and recursive paths alike — carries
`RA = 1`, its ANCount/NSCount/ARCount are the `uint16` images of the
lengths of the answer, authority and additional lists actually encoded
(equal to those lengths whenever they fit in 16 bits), and the returned
bytes are exactly the encoding of the final message. -/
theorem C10_response_counts (zs : List (List Nat × Zone)) (bl : List (List Nat))
    (oracle : Upstream) (fuel now : Nat) (cache : CacheState) (msg m' : Message)
    (bs : List Nat) (c' : CacheState)
    (hres : Message.BuildResponse zs bl oracle fuel now cache msg = .ok (m', some bs, c')) :
    m'.Header.RA = 1 ∧
    m'.Header.ANCount = m'.Answers.length % 65536 ∧
    m'.Header.NSCount = m'.Authority.length % 65536 ∧
    m'.Header.ARCount = m'.Additional.length % 65536 ∧
    (m'.Answers.length < 65536 → m'.Header.ANCount = m'.Answers.length) ∧
    (m'.Authority.length < 65536 → m'.Header.NSCount = m'.Authority.length) ∧
    (m'.Additional.length < 65536 → m'.Header.ARCount = m'.Additional.length) ∧
    bs = m'.Encode := by
  simp only [Message.BuildResponse] at hres
  split at hres
  · -- sinkhole path
    split at hres
    · simp at hres
    · rw [Except.ok.injEq] at hres
      exact buildResponseFinish_eq _ _ _ _ _ rfl hres
  · split at hres
    · -- cache hit
      rw [Except.ok.injEq] at hres
      exact buildResponseFinish_eq _ _ _ _ _ rfl hres
    · split at hres
      · -- recursive path
        split at hres
        · simp at hres
        · split at hres
          · simp at hres
          · simp at hres
        · rename_i msgR hR
          split at hres
          · simp at hres
          · rw [Except.ok.injEq] at hres
            exact buildResponseFinish_eq _ _ _ _ _
              (resolve_ok_QR_RA oracle fuel _ _ _ hR).2 hres
      · -- authoritative zone path
        split at hres
        · simp at hres
        · rename_i msgZ hz
          split at hres
          · simp at hres
          · rw [Except.ok.injEq] at hres
            refine buildResponseFinish_eq _ _ _ _ _ ?_ hres
            split at hz
            · simp only [Option.map_eq_some'] at hz
              obtain ⟨answers, _, rfl⟩ := hz
              rfl
            · obtain rfl := Option.some.inj hz
              rfl

/-- C10 witness: the concrete sinkhole run for `blockedQuery`. -/
theorem C10_response_counts_witness :
    c10Msg.Header.RA = 1 ∧
    c10Msg.Header.ANCount = c10Msg.Answers.length ∧
    c10Msg.Header.NSCount = c10Msg.Authority.length ∧
    c10Msg.Header.ARCount = c10Msg.Additional.length := by
  have h := C10_response_counts [] [strBytes "ads.example."] emptyUpstream 0 0 []
    blockedQuery c10Msg c10Msg.Encode [] (by decide)
  exact ⟨h.1, h.2.2.2.2.1 (by decide), h.2.2.2.2.2.1 (by decide), h.2.2.2.2.2.2.1 (by decide)⟩

/-- C5 (amended): for a query with a blocklisted name (and, as for any
freshly decoded query, no answer records), `BuildResponse` synthesizes
exactly one answer with the question's type and class, TTL 0 and RDATA
`127.0.0.1`, sets `QR = 1` and `ANCount = 1`, and does not touch the
cache; however ARCount is NOT cleared: the final resynchronization sets
it to the number of additional records the query carried (0 only when
the query had none), and those records are echoed in the response. -/
theorem C5_sinkhole_response (zs : List (List Nat × Zone)) (bl : List (List Nat))
    (oracle : Upstream) (fuel now : Nat) (cache : CacheState) (msg : Message)
    (nm : List Nat)
    (hbl : msg.Question.DomainName ∈ bl) (hans : msg.Answers = [])
    (henc : EncodeDomainName msg.Question.DomainName = .ok nm) :
    Message.BuildResponse zs bl oracle fuel now cache msg
      = .ok (sinkholeMsg msg nm, some (sinkholeMsg msg nm).Encode, cache) ∧
    (sinkholeMsg msg nm).Answers
      = [{ Name := nm, Type' := msg.Question.QType, Class := msg.Question.QClass,
           TTL := 0, RData := [127, 0, 0, 1], RDLength := 4 }] ∧
    (sinkholeMsg msg nm).Header.QR = 1 ∧
    (sinkholeMsg msg nm).Header.RA = 1 ∧
    (sinkholeMsg msg nm).Header.ANCount = 1 ∧
    (sinkholeMsg msg nm).Header.NSCount = 0 ∧
    (sinkholeMsg msg nm).Header.ARCount = msg.Additional.length % 65536 := by
  have hs : sinkIP = [127, 0, 0, 1] := by decide
  refine ⟨?_, ?_, rfl, rfl, ?_, rfl, rfl⟩
  · simp only [Message.BuildResponse]
    rw [if_pos hbl]
    simp only [henc]
    simp [buildResponseFinish, sinkholeMsg, sinkholeAnswer, hans, hs]
  · simp [sinkholeMsg, sinkholeAnswer, hans, hs]
  · simp [sinkholeMsg, hans]

/-- C5 counterexample: a blocklisted query that carries one additional
record.  The claim demands `ARCount = 0` in the reply, but the final
count resynchronization sets `ARCount = 1` (the additional record is
kept and echoed). -/
theorem C5_arcount_not_cleared :
    (Message.BuildResponse [] [strBytes "ads.example."] emptyUpstream 0 0 []
        blockedQueryExtra).toOption.map (fun r => r.1.Header.ARCount) = some 1 ∧
    (1 : Nat) ≠ 0 := by
  exact ⟨by decide, by decide⟩

/-- C5 witness: the sinkhole response for the concrete query
`ads.example. A IN` with an empty additional section. -/
theorem C5_sinkhole_response_witness :
    Message.BuildResponse [] [strBytes "ads.example."] emptyUpstream 0 0 [] blockedQuery
      = .ok (sinkholeMsg blockedQuery adsName,
             some (sinkholeMsg blockedQuery adsName).Encode, []) ∧
    (sinkholeMsg blockedQuery adsName).Answers
      = [{ Name := adsName, Type' := 1, Class := 1, TTL := 0,
           RData := [127, 0, 0, 1], RDLength := 4 }] ∧
    (sinkholeMsg blockedQuery adsName).Header.QR = 1 ∧
    (sinkholeMsg blockedQuery adsName).Header.RA = 1 ∧
    (sinkholeMsg blockedQuery adsName).Header.ANCount = 1 ∧
    (sinkholeMsg blockedQuery adsName).Header.NSCount = 0 ∧
    (sinkholeMsg blockedQuery adsName).Header.ARCount = 0 :=
  C5_sinkhole_response [] [strBytes "ads.example."] emptyUpstream 0 0 [] blockedQuery
    adsName (by decide) rfl (by decide)

end Mercury
